import Mathlib

/-!
Shallow embedding of the ortelius AVM reader (query/aggregation engine):
entity list readers, the aggregation histogram builder, the search resolver,
and the transaction dressing engine, together with theorems about them.

Database round-trips are modelled by passing the rows a query would return
(and scalar results such as counts or the first-transaction time) as explicit
arguments; the functions below reproduce the computation the Go code performs
on those rows.  Query *issuance* is modelled by returning the list of queries
a call performs alongside its result.
-/

namespace Avm

/-! ## Amount arithmetic: big.Int parsing of decimal strings -/

/-- Value of a decimal digit character, `none` for non-digits. -/
def digitVal (c : Char) : Option Nat :=
  if c.isDigit then some (c.toNat - 48) else none

/-- Accumulate decimal digits left to right, failing on a non-digit. -/
def parseNatDigitsAux : List Char → Nat → Option Nat
  | [], acc => some acc
  | c :: cs, acc =>
    match digitVal c with
    | some d => parseNatDigitsAux cs (acc * 10 + d)
    | none => none

/-- Parse a non-empty all-digit string of characters. -/
def parseNatDigits (cs : List Char) : Option Nat :=
  match cs with
  | [] => none
  | _ => parseNatDigitsAux cs 0

/-- Model of `big.Int.SetString(s, 10)`: optional sign followed by a
non-empty run of decimal digits; anything else fails. -/
def parseBigInt (s : String) : Option Int :=
  match s.toList with
  | '-' :: rest => (parseNatDigits rest).map (fun n => -(n : Int))
  | '+' :: rest => (parseNatDigits rest).map (fun n => (n : Int))
  | cs => (parseNatDigits cs).map (fun n => (n : Int))

/-- Exact ceiling division, modelling `math.Ceil(a / b)` for positive `b`. -/
def intCeilDiv (a b : Int) : Int := -((-a).ediv b)

/-! ## Association lists (model of Go maps, insertion-ordered) -/

/-- Insert or replace the binding for `k` (model of Go map assignment). -/
def alUpsert {K V : Type} [DecidableEq K] : List (K × V) → K → V → List (K × V)
  | [], k, v => [(k, v)]
  | (k', v') :: t, k, v =>
    if k' = k then (k, v) :: t else (k', v') :: alUpsert t k v

/-- Look up the binding for `k`. -/
def alLookup {K V : Type} [DecidableEq K] : List (K × V) → K → Option V
  | [], _ => none
  | (k', v') :: t, k => if k' = k then some v' else alLookup t k

/-- Apply `f` to the binding for `k`, if present. -/
def alUpdate {K V : Type} [DecidableEq K] : List (K × V) → K → (V → V) → List (K × V)
  | [], _, _ => []
  | (k', v') :: t, k, f =>
    if k' = k then (k', f v') :: t else (k', v') :: alUpdate t k f

/-! ## Aggregation histogram builder (`Aggregate`) -/

/-- One histogram bucket row (`models.Aggregates`): the bucket index computed
by the grouped query, its time bounds, and the five aggregate counters.
The transaction volume is a decimal string; its zero value is `""`. -/
structure Aggregates where
  idx : Nat := 0
  startTime : Int := 0
  endTime : Int := 0
  transactionVolume : String := ""
  transactionCount : Int := 0
  outputCount : Int := 0
  addressCount : Int := 0
  assetCount : Int := 0
deriving DecidableEq, Repr

/-- `models.AggregatesHistogram`: interval width, grand-total aggregates for
the whole range, and the ordered per-bucket interval sequence. -/
structure AggregatesHistogram where
  intervalSize : Int := 0
  aggregates : Aggregates := {}
  intervals : List Aggregates := []
deriving DecidableEq, Repr

inductive AggregateError where
  | intervalCountTooLarge
  | failedToParseStringAsBigInt
deriving DecidableEq, Repr

/-- The storage round-trips an `Aggregate` call can issue. -/
inductive AggregateQuery where
  | firstTransactionTimeQuery
  | aggregateQuery
deriving DecidableEq, Repr

def MaxAggregateIntervalCount : Int := 20000

/-- `timesForInterval`: an interval's start time is its index times the
interval size plus the starting time; the end time is `intervalSize - 1`
seconds after the start time. -/
def timesForInterval (startTS intervalSeconds : Int) (intervalIdx : Nat) : Int × Int :=
  (startTS + (intervalIdx : Int) * intervalSeconds,
   startTS + (intervalIdx : Int) * intervalSeconds + intervalSeconds - 1)

/-- The zero-counter bucket synthesized for a missing index `i`. -/
def emptyAggregate (startTS intervalSeconds : Int) (i : Nat) : Aggregates :=
  { idx := i,
    startTime := (timesForInterval startTS intervalSeconds i).1,
    endTime := (timesForInterval startTS intervalSeconds i).2 }

/-- Body of the `padTo` loop: append `fuel` synthesized buckets, each indexed
by the length of the slice at the moment it is appended. -/
def padToAux (startTS intervalSeconds : Int) (slice : List Aggregates) : Nat → List Aggregates
  | 0 => slice
  | n + 1 =>
    padToAux startTS intervalSeconds
      (slice ++ [emptyAggregate startTS intervalSeconds slice.length]) n

/-- `padTo`: append synthesized empty buckets until the slice has length
`target` (a no-op when it is already at least that long). -/
def padTo (startTS intervalSeconds : Int) (slice : List Aggregates) (target : Nat) : List Aggregates :=
  padToAux startTS intervalSeconds slice (target - slice.length)

/-- Running state of the interval-assembly loop: intervals emitted so far and
the grand-total accumulators. -/
structure AssembleState where
  intervals : List Aggregates := []
  totalVolume : Int := 0
  transactionCount : Int := 0
  outputCount : Int := 0
  addressCount : Int := 0
  assetCount : Int := 0
deriving Repr

/-- The per-returned-bucket loop of `Aggregate`: pad up to the bucket's
index, stamp the bucket's time bounds, parse its volume (aborting the whole
aggregation on failure), and accumulate grand totals. -/
def assembleIntervals (startTS intervalSeconds : Int) :
    List Aggregates → AssembleState → Except AggregateError AssembleState
  | [], st => .ok st
  | interval :: rest, st =>
    let padded := padTo startTS intervalSeconds st.intervals interval.idx
    let times := timesForInterval startTS intervalSeconds interval.idx
    match parseBigInt interval.transactionVolume with
    | none => .error .failedToParseStringAsBigInt
    | some v =>
      assembleIntervals startTS intervalSeconds rest
        { intervals := padded ++ [{ interval with startTime := times.1, endTime := times.2 }],
          totalVolume := st.totalVolume + v,
          transactionCount := st.transactionCount + interval.transactionCount,
          outputCount := st.outputCount + interval.outputCount,
          addressCount := st.addressCount + interval.addressCount,
          assetCount := st.assetCount + interval.assetCount }

/-- Multi-bucket assembly of `Aggregate` (requested interval count above 0):
run the per-bucket loop, format the grand total, and pad trailing intervals
up to the requested count. -/
def aggregateMulti (startTS endTS intervalSeconds : Int) (n : Nat) (rows : List Aggregates) :
    Except AggregateError AggregatesHistogram :=
  match assembleIntervals startTS intervalSeconds rows {} with
  | .error e => .error e
  | .ok st =>
    .ok
      { intervalSize := intervalSeconds,
        aggregates :=
          { startTime := startTS, endTime := endTS,
            transactionVolume := toString st.totalVolume,
            transactionCount := st.transactionCount,
            outputCount := st.outputCount,
            addressCount := st.addressCount,
            assetCount := st.assetCount },
        intervals := padTo startTS intervalSeconds st.intervals n }

/-- Parameters of an `Aggregate` call.  A Go `time.Time` zero value is
modelled by the `startTimeIsZero` flag; times are Unix seconds and the
interval size is its whole-second count. -/
structure AggregateParams where
  startTimeIsZero : Bool := false
  startTime : Int := 0
  endTime : Int := 0
  intervalSeconds : Int := 0
deriving DecidableEq, Repr

/-- The start time actually used: the caller's unless it is the zero value,
in which case the earliest transaction's creation time is looked up. -/
def effectiveStartTime (p : AggregateParams) (firstTransactionTime : Int) : Int :=
  if p.startTimeIsZero then firstTransactionTime else p.startTime

/-- `Aggregate`: validates the requested interval count, then builds the
histogram from the grouped-query rows.  `firstTransactionTime` stands for the
result of `getFirstTransactionTime`; `rows` stands for the rows the aggregate
query returns.  The second component lists the storage queries issued. -/
def Aggregate (p : AggregateParams) (firstTransactionTime : Int) (rows : List Aggregates) :
    Except AggregateError AggregatesHistogram × List AggregateQuery :=
  let startTS := effectiveStartTime p firstTransactionTime
  let preQueries : List AggregateQuery :=
    if p.startTimeIsZero then [.firstTransactionTimeQuery] else []
  let requested : Int :=
    if p.intervalSeconds ≠ 0 then intCeilDiv (p.endTime - startTS) p.intervalSeconds else 0
  if p.intervalSeconds ≠ 0 ∧ requested > MaxAggregateIntervalCount then
    (.error .intervalCountTooLarge, preQueries)
  else
    let n : Nat := if p.intervalSeconds ≠ 0 then (max requested 1).toNat else 0
    let queries := preQueries ++ [.aggregateQuery]
    if n = 0 then
      match rows with
      | [] => (.ok {}, queries)
      | r :: _ =>
        (.ok { aggregates := { r with startTime := startTS, endTime := p.endTime } }, queries)
    else
      (aggregateMulti startTS p.endTime p.intervalSeconds n rows, queries)

/-! ## Entity list readers: pagination counting and parameter mutation

Each `List*` reader loads a page of rows and then, unless counting is
disabled, reports `offset + page size` as the count — except when the page is
saturated (page size at least the limit), in which case it clears the embedded
`ListParams` on the caller's parameter object and issues a second counting
query.  The row loading itself is external; the models below take the loaded
page size and the count query's result as arguments and return
`(reported count, whether a count query was issued, final parameter object)`. -/

/-- The embedded `params.ListParams` (pagination and counting flags); its Go
zero value is all fields zero. -/
structure ListParams where
  limit : Nat := 0
  offset : Nat := 0
  disableCounting : Bool := false
deriving DecidableEq, Repr

/-- Modelled from the spec: the sort orders of `params.TransactionSort`
(the params package is external to this repository).  Supported orders are
ascending and descending creation time; `unrecognized` stands for any other
value of the underlying type. -/
inductive TransactionSort where
  | timestampAsc
  | timestampDesc
  | unrecognized
deriving DecidableEq, Repr

/-- Modelled from the spec: `params.TransactionSortDefault`, the default
order an unrecognized sort value falls back to (ascending creation time). -/
def transactionSortDefault : TransactionSort := .timestampAsc

structure ListTransactionsParams where
  listParams : ListParams := {}
  query : String := ""
  sort : TransactionSort := transactionSortDefault
deriving DecidableEq, Repr

structure ListAssetsParams where
  listParams : ListParams := {}
  query : String := ""
deriving DecidableEq, Repr

structure ListAddressesParams where
  listParams : ListParams := {}
  query : String := ""
deriving DecidableEq, Repr

structure ListOutputsParams where
  listParams : ListParams := {}
  query : String := ""
deriving DecidableEq, Repr

/-- Counting phase of `ListTransactions`. -/
def listTransactionsCount (p : ListTransactionsParams) (numRows dbCount : Nat) :
    Nat × Bool × ListTransactionsParams :=
  if p.listParams.disableCounting then (0, false, p)
  else if numRows ≥ p.listParams.limit then (dbCount, true, { p with listParams := {} })
  else (p.listParams.offset + numRows, false, p)

/-- Counting phase of `ListAssets`. -/
def listAssetsCount (p : ListAssetsParams) (numRows dbCount : Nat) :
    Nat × Bool × ListAssetsParams :=
  if p.listParams.disableCounting then (0, false, p)
  else if numRows ≥ p.listParams.limit then (dbCount, true, { p with listParams := {} })
  else (p.listParams.offset + numRows, false, p)

/-- Counting phase of `ListAddresses`. -/
def listAddressesCount (p : ListAddressesParams) (numRows dbCount : Nat) :
    Nat × Bool × ListAddressesParams :=
  if p.listParams.disableCounting then (0, false, p)
  else if numRows ≥ p.listParams.limit then (dbCount, true, { p with listParams := {} })
  else (p.listParams.offset + numRows, false, p)

/-- Counting phase of `ListOutputs`.  Unlike the other three readers,
`ListOutputs` returns early on an empty page (`if len(outputs) < 1`), before
the counting block: the zero-value count 0 is reported, no count query is
issued and the parameter object is left untouched. -/
def listOutputsCount (p : ListOutputsParams) (numRows dbCount : Nat) :
    Nat × Bool × ListOutputsParams :=
  if numRows < 1 then (0, false, p)
  else if p.listParams.disableCounting then (0, false, p)
  else if numRows ≥ p.listParams.limit then (dbCount, true, { p with listParams := {} })
  else (p.listParams.offset + numRows, false, p)

/-! ## Transaction sort policy (`applySort` in `ListTransactions`) -/

/-- One `ORDER BY` clause added to the query builder. -/
structure OrderClause where
  column : String
  ascending : Bool
deriving DecidableEq, Repr

/-- The clauses the `applySort` switch adds for a recognized sort value.  An
unrecognized value recurses with the default sort; since the default is a
recognized value that recursion runs exactly one more step, unrolled here
(the unreachable inner arm returns no clauses). -/
def sortOrderClauses (sort : TransactionSort) : List OrderClause :=
  match sort with
  | .timestampAsc =>
    [{ column := "avm_transactions.chain_id", ascending := true },
     { column := "avm_transactions.created_at", ascending := true }]
  | .timestampDesc =>
    [{ column := "avm_transactions.chain_id", ascending := true },
     { column := "avm_transactions.created_at", ascending := false }]
  | .unrecognized =>
    match transactionSortDefault with
    | .timestampAsc =>
      [{ column := "avm_transactions.chain_id", ascending := true },
       { column := "avm_transactions.created_at", ascending := true }]
    | .timestampDesc =>
      [{ column := "avm_transactions.chain_id", ascending := true },
       { column := "avm_transactions.created_at", ascending := false }]
    | .unrecognized => []

/-- `applySort`: when a free-text query filter is active no explicit order
is applied at all; otherwise the switch above decides the clauses. -/
def applySort (query : String) (sort : TransactionSort) : List OrderClause :=
  if query ≠ "" then [] else sortOrderClauses sort

/-! ## Search resolver -/

def MinSearchQueryLength : Nat := 1

inductive SearchError where
  | searchQueryTooShort
deriving DecidableEq, Repr

inductive EntityKind where
  | assets
  | transactions
  | addresses
deriving DecidableEq, Repr

/-- One sub-query the search resolver issues: which entity it lists and
whether counting was disabled on it. -/
structure SubQuery where
  entity : EntityKind
  disableCounting : Bool
deriving DecidableEq, Repr

/-- `Search`: validates the query length, dispatches identifier-shaped
queries to exact lookups, and otherwise queries assets, transactions and
addresses in order, stopping after any type whose page reaches the limit.
String parsing and the sub-queries themselves are external: `isShortID` and
`isID` stand for the two parse attempts, and `numAssets`, `numTransactions`,
`numAddresses` for the sizes of the pages the three list readers return.
The second component lists the sub-queries issued. -/
def Search (queryLength : Nat) (isShortID isID : Bool) (limit : Nat)
    (numAssets numTransactions numAddresses : Nat) :
    Except SearchError Unit × List SubQuery :=
  if queryLength < MinSearchQueryLength then (.error .searchQueryTooShort, [])
  else if isShortID then
    (.ok (), [{ entity := .addresses, disableCounting := true }])
  else if isID then
    if numAssets > 0 then (.ok (), [{ entity := .assets, disableCounting := true }])
    else
      (.ok (), [{ entity := .assets, disableCounting := true },
                { entity := .transactions, disableCounting := true }])
  else
    if numAssets ≥ limit then
      (.ok (), [{ entity := .assets, disableCounting := true }])
    else if numTransactions ≥ limit then
      (.ok (), [{ entity := .assets, disableCounting := true },
                { entity := .transactions, disableCounting := true }])
    else
      (.ok (), [{ entity := .assets, disableCounting := true },
                { entity := .transactions, disableCounting := true },
                { entity := .addresses, disableCounting := true }])

/-! ## Transaction dressing engine (`dressTransactions`)

The two joined queries (outputs whose owning transaction is in the batch,
outputs whose redeeming transaction is in the batch) are external; their
merged row set is passed in as `rows`.  Go maps are modelled by
insertion-ordered association lists (`alUpsert`/`alLookup`), a deterministic
refinement of Go's unspecified map iteration order. -/

abbrev StringID := String

abbrev Address := String

/-- One row of the merged query result (`compositeRecord`): the output
columns joined with one of its `(address, signature, public key)` rows.
An empty signature models a NULL / absent redeeming signature. -/
structure CompositeRecord where
  id : StringID := ""
  transactionID : StringID := ""
  assetID : StringID := ""
  amount : String := ""
  redeemingTransactionID : StringID := ""
  outputID : StringID := ""
  address : Address := ""
  signature : String := ""
  publicKey : String := ""
deriving DecidableEq, Repr

/-- The output part of a dressed row (`models.Output`, the fields the
dressing engine reads and writes). -/
structure OutputModel where
  id : StringID := ""
  transactionID : StringID := ""
  assetID : StringID := ""
  amount : String := ""
  redeemingTransactionID : StringID := ""
  addresses : List Address := []
deriving DecidableEq, Repr

/-- Project a row onto its output columns. -/
def CompositeRecord.toOutput (r : CompositeRecord) : OutputModel :=
  { id := r.id, transactionID := r.transactionID, assetID := r.assetID,
    amount := r.amount, redeemingTransactionID := r.redeemingTransactionID }

/-- `models.InputCredentials`: proof of authorization to redeem an output. -/
structure InputCredentials where
  address : Address := ""
  publicKey : String := ""
  signature : String := ""
deriving DecidableEq, Repr

/-- `models.Input`: a redeemed output plus its credentials. -/
structure InputModel where
  output : OutputModel := {}
  creds : List InputCredentials := []
deriving DecidableEq, Repr

/-- `models.Transaction`, with the fields the dressing engine populates.
Totals map an asset identifier to a decimal-string amount. -/
structure TransactionModel where
  id : StringID := ""
  chainID : String := ""
  inputs : List InputModel := []
  outputs : List OutputModel := []
  inputTotals : List (StringID × String) := []
  outputTotals : List (StringID × String) := []
deriving DecidableEq, Repr

/-- `addToBigIntMap`: add `amt` onto the running total for
`(txID, assetID)`, treating a missing entry as zero. -/
def addToBigIntMap (m : List ((StringID × StringID) × Int)) (txID assetID : StringID) (amt : Int) :
    List ((StringID × StringID) × Int) :=
  alUpsert m (txID, assetID) (amt + (alLookup m (txID, assetID)).getD 0)

/-- Record one more entitled address for output `outID` (a Go
`map[...]struct{}` set, modelled as an insertion-ordered duplicate-free
list). -/
def addAddr (m : StringID → List Address) (outID : StringID) (addr : Address) :
    StringID → List Address :=
  fun i =>
    if i = outID then (if addr ∈ m outID then m outID else m outID ++ [addr]) else m i

/-- State built by the first pass over the merged rows. -/
structure DressState where
  outputAddrs : StringID → List Address := fun _ => []
  outputsMap : List ((StringID × StringID) × OutputModel) := []
  inputsMap : List ((StringID × StringID) × InputModel) := []
  inputTotalsMap : List ((StringID × StringID) × Int) := []
  outputTotalsMap : List ((StringID × StringID) × Int) := []

/-- First-pass body: parse the row's amount (aborting the whole dressing on
failure) and accumulate the address set, the outputs and inputs maps, and
the per-transaction per-asset totals. -/
def collectRow (st : DressState) (r : CompositeRecord) : Except String DressState :=
  match parseBigInt r.amount with
  | none => .error "invalid amount"
  | some amt =>
    .ok
      { outputAddrs := addAddr st.outputAddrs r.id r.address,
        outputsMap := alUpsert st.outputsMap (r.transactionID, r.id) r.toOutput,
        inputsMap := alUpsert st.inputsMap (r.redeemingTransactionID, r.id) { output := r.toOutput },
        outputTotalsMap := addToBigIntMap st.outputTotalsMap r.transactionID r.assetID amt,
        inputTotalsMap := addToBigIntMap st.inputTotalsMap r.redeemingTransactionID r.assetID amt }

/-- First pass over the merged row list. -/
def collectRows : List CompositeRecord → DressState → Except String DressState
  | [], st => .ok st
  | r :: rest, st =>
    match collectRow st r with
    | .error e => .error e
    | .ok st' => collectRows rest st'

/-- Append a credential onto the first input of the redeeming transaction
`rtx` that wraps the output identified by `outID` (the Go loop over
`inputsMap[rtx]` matching `input.Output.ID`, with its `break`). -/
def appendCred (cred : InputCredentials) (rtx outID : StringID) :
    List ((StringID × StringID) × InputModel) → List ((StringID × StringID) × InputModel)
  | [] => []
  | (k, inp) :: t =>
    if k.1 = rtx ∧ inp.output.id = outID then
      (k, { inp with creds := inp.creds ++ [cred] }) :: t
    else
      (k, inp) :: appendCred cred rtx outID t

/-- Second pass: every row whose address carries a non-empty redeeming
signature contributes a credential to the matching input. -/
def attachCreds : List CompositeRecord →
    List ((StringID × StringID) × InputModel) → List ((StringID × StringID) × InputModel)
  | [], m => m
  | r :: rest, m =>
    if r.signature = "" then attachCreds rest m
    else
      attachCreds rest
        (appendCred { address := r.address, publicKey := r.publicKey, signature := r.signature }
          r.redeemingTransactionID r.outputID m)

/-- Attach the accumulated distinct-address set to an output. -/
def withAddresses (m : StringID → List Address) (o : OutputModel) : OutputModel :=
  { o with addresses := m o.id }

/-- Final pass for one transaction of the batch: attach its inputs (with
credentials and address sets), outputs (with address sets), and the
formatted per-asset totals. -/
def dressOne (st : DressState) (rows : List CompositeRecord) (tx : TransactionModel) :
    TransactionModel :=
  { tx with
    inputs :=
      ((attachCreds rows st.inputsMap).filter (fun kv => kv.1.1 == tx.id)).map
        (fun kv => { kv.2 with output := withAddresses st.outputAddrs kv.2.output }),
    outputs :=
      (st.outputsMap.filter (fun kv => kv.1.1 == tx.id)).map
        (fun kv => withAddresses st.outputAddrs kv.2),
    inputTotals :=
      (st.inputTotalsMap.filter (fun kv => kv.1.1 == tx.id)).map
        (fun kv => (kv.1.2, toString kv.2)),
    outputTotals :=
      (st.outputTotalsMap.filter (fun kv => kv.1.1 == tx.id)).map
        (fun kv => (kv.1.2, toString kv.2)) }

/-- `dressTransactions`: run both passes over the merged rows and attach the
data built up to each transaction of the batch. -/
def dressTransactions (txs : List TransactionModel) (rows : List CompositeRecord) :
    Except String (List TransactionModel) :=
  if txs = [] then .ok txs
  else
    match collectRows rows {} with
    | .error e => .error e
    | .ok st => .ok (txs.map (dressOne st rows))

/-! Row-set summaries the dressing theorems are stated against. -/

/-- The merged rows that contribute to transaction `txID`'s output total for
`assetID`. -/
def outputRowsFor (rows : List CompositeRecord) (txID assetID : StringID) : List CompositeRecord :=
  rows.filter (fun r => r.transactionID == txID && r.assetID == assetID)

/-- The merged rows that contribute to transaction `txID`'s input total for
`assetID`. -/
def inputRowsFor (rows : List CompositeRecord) (txID assetID : StringID) : List CompositeRecord :=
  rows.filter (fun r => r.redeemingTransactionID == txID && r.assetID == assetID)

/-- Big-integer sum of the rows' parsed amounts. -/
def rowAmountSum (l : List CompositeRecord) : Int :=
  (l.map (fun r => (parseBigInt r.amount).getD 0)).sum

/-- The distinct addresses entitled to output `outID`, in first-appearance
order. -/
def addressesFor (rows : List CompositeRecord) (outID : StringID) : List Address :=
  (rows.filter (fun r => r.id == outID)).foldl
    (fun acc r => if r.address ∈ acc then acc else acc ++ [r.address]) []

/-- The credentials the signed rows of output `outID` contribute, in row
order. -/
def credsFor (rows : List CompositeRecord) (outID : StringID) : List InputCredentials :=
  (rows.filter (fun r => r.outputID == outID && r.signature != "")).map
    (fun r => { address := r.address, publicKey := r.publicKey, signature := r.signature })

/-- The credentials the second pass routes to the input keyed by
`(rtx, outID)`, in row order. -/
def credsForKey (rows : List CompositeRecord) (rtx outID : StringID) : List InputCredentials :=
  (rows.filter
      (fun r => r.redeemingTransactionID == rtx && r.outputID == outID && r.signature != "")).map
    (fun r => { address := r.address, publicKey := r.publicKey, signature := r.signature })

/-! ## Specification predicates -/

/-- A bucket's volume as an integer: its parsed decimal string, with the
`""` of a synthesized bucket counting as zero. -/
def bucketVolume (a : Aggregates) : Int := (parseBigInt a.transactionVolume).getD 0

/-- Well-formed interval sequences: position `i` holds bucket index `i` with
the bucket bounds of index `i`, and is either a synthesized empty bucket or a
returned row of bucket index `i` stamped with those bounds. -/
def intervalsWF (startTS w : Int) (rows0 : List Aggregates) (l : List Aggregates) : Prop :=
  ∀ i : Nat, ∀ hi : i < l.length,
    l[i].idx = i ∧
    l[i].startTime = startTS + (i : Int) * w ∧
    l[i].endTime = startTS + (i : Int) * w + w - 1 ∧
    (l[i] = emptyAggregate startTS w i ∨
      ∃ r, r ∈ rows0 ∧ r.idx = i ∧
        l[i] = { r with startTime := startTS + (i : Int) * w,
                        endTime := startTS + (i : Int) * w + w - 1 })

/-! ## Lemmas about padding and interval assembly -/

theorem padToAux_length (st w : Int) (n : Nat) :
    ∀ s : List Aggregates, (padToAux st w s n).length = s.length + n := by
  induction n with
  | zero => intro s; simp [padToAux]
  | succ n ih =>
    intro s
    rw [padToAux, ih]
    simp
    omega

theorem padTo_length (st w : Int) (s : List Aggregates) (target : Nat) :
    (padTo st w s target).length = max s.length target := by
  rw [padTo, padToAux_length]
  omega

theorem padToAux_getElem (st w : Int) (n : Nat) :
    ∀ (s : List Aggregates) (i : Nat) (h1 : i < (padToAux st w s n).length),
      (padToAux st w s n)[i] =
        if h : i < s.length then s[i] else emptyAggregate st w i := by
  induction n with
  | zero =>
    intro s i h1
    simp only [padToAux] at h1
    have hstep : padToAux st w s 0 = s := rfl
    rw [getElem_congr_coll hstep, dif_pos h1]
  | succ n ih =>
    intro s i h1
    have hstep :
        padToAux st w s (n + 1) =
          padToAux st w (s ++ [emptyAggregate st w s.length]) n := rfl
    rw [hstep] at h1
    rw [getElem_congr_coll hstep, ih _ i h1]
    by_cases hs : i < s.length
    · have hs' : i < (s ++ [emptyAggregate st w s.length]).length := by
        simp; omega
      rw [dif_pos hs', dif_pos hs]
      exact List.getElem_append_left hs
    · by_cases he : i < s.length + 1
      · have hi : i = s.length := by omega
        have hs' : i < (s ++ [emptyAggregate st w s.length]).length := by
          simp; omega
        rw [dif_pos hs', dif_neg hs]
        subst hi
        simp
      · have hs' : ¬ i < (s ++ [emptyAggregate st w s.length]).length := by
          simp; omega
        rw [dif_neg hs', dif_neg hs]

theorem padTo_getElem (st w : Int) (s : List Aggregates) (target : Nat) (i : Nat)
    (h1 : i < (padTo st w s target).length) :
    (padTo st w s target)[i] =
      if h : i < s.length then s[i] else emptyAggregate st w i := by
  have hstep : padTo st w s target = padToAux st w s (target - s.length) := rfl
  rw [hstep] at h1
  rw [getElem_congr_coll hstep]
  exact padToAux_getElem st w _ s i h1

theorem emptyAggregate_idx (st w : Int) (i : Nat) : (emptyAggregate st w i).idx = i := rfl

theorem emptyAggregate_startTime (st w : Int) (i : Nat) :
    (emptyAggregate st w i).startTime = st + (i : Int) * w := rfl

theorem emptyAggregate_endTime (st w : Int) (i : Nat) :
    (emptyAggregate st w i).endTime = st + (i : Int) * w + w - 1 := rfl

theorem intervalsWF_padTo (startTS w : Int) (rows0 : List Aggregates)
    (l : List Aggregates) (target : Nat) (h : intervalsWF startTS w rows0 l) :
    intervalsWF startTS w rows0 (padTo startTS w l target) := by
  intro i hi
  rw [padTo_getElem startTS w l target i hi]
  by_cases hs : i < l.length
  · rw [dif_pos hs]
    exact h i hs
  · rw [dif_neg hs]
    exact ⟨emptyAggregate_idx startTS w i, emptyAggregate_startTime startTS w i,
      emptyAggregate_endTime startTS w i, Or.inl rfl⟩

theorem intervalsWF_nil (startTS w : Int) (rows0 : List Aggregates) :
    intervalsWF startTS w rows0 [] := by
  intro i hi
  simp at hi

theorem assembleIntervals_invariant (startTS w : Int) (rows0 : List Aggregates) (m : Nat) :
    ∀ (rows : List Aggregates) (st st' : AssembleState),
      assembleIntervals startTS w rows st = .ok st' →
      (∀ r ∈ rows, r ∈ rows0) →
      rows.Pairwise (fun a b => a.idx < b.idx) →
      (∀ r ∈ rows, st.intervals.length ≤ r.idx) →
      (∀ r ∈ rows, r.idx < m) →
      st.intervals.length ≤ m →
      intervalsWF startTS w rows0 st.intervals →
      intervalsWF startTS w rows0 st'.intervals ∧ st'.intervals.length ≤ m := by
  intro rows
  induction rows with
  | nil =>
    intro st st' hok _ _ _ _ hstm hwf
    rw [assembleIntervals] at hok
    cases hok
    exact ⟨hwf, hstm⟩
  | cons r rest ih =>
    intro st st' hok hsub hpw hle hltm hstm hwf
    rw [assembleIntervals] at hok
    cases hparse : parseBigInt r.transactionVolume with
    | none => rw [hparse] at hok; cases hok
    | some v =>
      rw [hparse] at hok
      have hrle : st.intervals.length ≤ r.idx := hle r (List.mem_cons_self r rest)
      have hrm : r.idx < m := hltm r (List.mem_cons_self r rest)
      have hpadlen : (padTo startTS w st.intervals r.idx).length = r.idx := by
        rw [padTo_length]; omega
      have hnewlen :
          ((padTo startTS w st.intervals r.idx) ++
            [{ r with startTime := (timesForInterval startTS w r.idx).1,
                      endTime := (timesForInterval startTS w r.idx).2 }]).length = r.idx + 1 := by
        simp [hpadlen]
      have hpadwf := intervalsWF_padTo startTS w rows0 st.intervals r.idx hwf
      have hnewwf :
          intervalsWF startTS w rows0
            ((padTo startTS w st.intervals r.idx) ++
              [{ r with startTime := (timesForInterval startTS w r.idx).1,
                        endTime := (timesForInterval startTS w r.idx).2 }]) := by
        intro i hi
        rw [hnewlen] at hi
        by_cases hilt : i < r.idx
        · have hi' : i < (padTo startTS w st.intervals r.idx).length := by omega
          rw [List.getElem_append_left hi']
          exact hpadwf i hi'
        · have hieq : i = r.idx := by omega
          have hi' : (padTo startTS w st.intervals r.idx).length ≤ i := by omega
          subst hieq
          rw [List.getElem_append_right hi']
          simp [hpadlen, timesForInterval]
          exact Or.inr ⟨r, hsub r (List.mem_cons_self r rest), rfl, rfl, rfl, rfl, rfl, rfl, rfl⟩
      refine ih _ st' hok (fun x hx => hsub x (List.mem_cons_of_mem r hx))
        (List.Pairwise.of_cons hpw) ?_ (fun x hx => hltm x (List.mem_cons_of_mem r hx)) ?_ hnewwf
      · intro x hx
        rw [hnewlen]
        have := (List.pairwise_cons.mp hpw).1 x hx
        omega
      · rw [hnewlen]; omega

theorem sumVol_append (l l' : List Aggregates) :
    ((l ++ l').map bucketVolume).sum = (l.map bucketVolume).sum + (l'.map bucketVolume).sum := by
  simp

theorem bucketVolume_empty (st w : Int) (i : Nat) : bucketVolume (emptyAggregate st w i) = 0 := rfl

theorem sumVol_padToAux (st w : Int) (n : Nat) :
    ∀ s : List Aggregates,
      ((padToAux st w s n).map bucketVolume).sum = (s.map bucketVolume).sum := by
  induction n with
  | zero => intro s; rw [padToAux]
  | succ n ih =>
    intro s
    rw [padToAux, ih, sumVol_append]
    simp [bucketVolume_empty]

theorem sumVol_padTo (st w : Int) (s : List Aggregates) (target : Nat) :
    ((padTo st w s target).map bucketVolume).sum = (s.map bucketVolume).sum := by
  rw [padTo, sumVol_padToAux]

theorem assembleIntervals_volume (startTS w : Int) :
    ∀ (rows : List Aggregates) (st st' : AssembleState),
      assembleIntervals startTS w rows st = .ok st' →
      st'.totalVolume - (st'.intervals.map bucketVolume).sum =
        st.totalVolume - (st.intervals.map bucketVolume).sum := by
  intro rows
  induction rows with
  | nil =>
    intro st st' hok
    rw [assembleIntervals] at hok
    cases hok
    rfl
  | cons r rest ih =>
    intro st st' hok
    rw [assembleIntervals] at hok
    cases hparse : parseBigInt r.transactionVolume with
    | none => rw [hparse] at hok; cases hok
    | some v =>
      rw [hparse] at hok
      have h2 := ih _ st' hok
      rw [h2]
      simp [sumVol_append, sumVol_padTo]
      have : bucketVolume { r with startTime := (timesForInterval startTS w r.idx).1,
                                   endTime := (timesForInterval startTS w r.idx).2 } = v := by
        simp [bucketVolume, hparse]
      rw [this]
      ring

/-! ## Claim theorems: aggregation histogram builder -/

/-- C2: for every histogram request with requested bucket count `n > 1`
(positive width) that succeeds, and whose grouped query returns rows in
strictly increasing bucket-index order with indices below `n`, the interval
sequence has length exactly `n`, position `i` holds bucket index `i` with
start time `startTime + i*width` and end time `startTime + (i+1)*width - 1`,
and every index no returned row covers is a synthesized zero-counter bucket
with those same bounds. -/
theorem aggregate_bucket_layout (p : AggregateParams) (ft : Int) (rows : List Aggregates)
    (h : AggregatesHistogram) (n : Nat)
    (hz : p.startTimeIsZero = false)
    (hw : 0 < p.intervalSeconds)
    (hn : n = (max (intCeilDiv (p.endTime - p.startTime) p.intervalSeconds) 1).toNat)
    (h1 : 1 < n)
    (hsort : rows.Pairwise (fun a b => a.idx < b.idx))
    (hidx : ∀ r ∈ rows, r.idx < n)
    (hok : (Aggregate p ft rows).1 = .ok h) :
    h.intervals.length = n ∧
    ∀ i : Nat, ∀ hi : i < h.intervals.length,
      h.intervals[i].idx = i ∧
      h.intervals[i].startTime = p.startTime + (i : Int) * p.intervalSeconds ∧
      h.intervals[i].endTime = p.startTime + ((i : Int) + 1) * p.intervalSeconds - 1 ∧
      ((∀ r ∈ rows, r.idx ≠ i) →
        h.intervals[i] = emptyAggregate p.startTime p.intervalSeconds i) := by
  have hw' : p.intervalSeconds ≠ 0 := ne_of_gt hw
  by_cases hbig :
      intCeilDiv (p.endTime - p.startTime) p.intervalSeconds > MaxAggregateIntervalCount
  · simp only [Aggregate, effectiveStartTime, hz, Bool.false_eq_true, if_false, hw',
      ne_eq, not_false_eq_true, if_true, hbig, and_self, if_pos] at hok
    cases hok
  · simp only [Aggregate, effectiveStartTime, hz, Bool.false_eq_true, if_false, hw',
      ne_eq, not_false_eq_true, if_true, hbig, and_false, if_neg, not_false_eq_true] at hok
    rw [← hn] at hok
    have hn0 : n ≠ 0 := by omega
    rw [if_neg hn0] at hok
    simp only at hok
    cases hass : assembleIntervals p.startTime p.intervalSeconds rows {} with
    | error e => rw [aggregateMulti, hass] at hok; cases hok
    | ok st =>
      rw [aggregateMulti, hass] at hok
      have heq := (Except.ok.injEq _ _).mp hok
      subst heq
      have hinv := assembleIntervals_invariant p.startTime p.intervalSeconds rows n rows
        ({} : AssembleState) st hass (fun r hr => hr) hsort
        (fun r _ => Nat.zero_le _) hidx (Nat.zero_le _)
        (intervalsWF_nil p.startTime p.intervalSeconds rows)
      obtain ⟨hwf, hlen⟩ := hinv
      have hfwf := intervalsWF_padTo p.startTime p.intervalSeconds rows st.intervals n hwf
      constructor
      · simp only [padTo_length]
        omega
      · intro i hi
        obtain ⟨c1, c2, c3, c4⟩ := hfwf i hi
        refine ⟨c1, c2, ?_, ?_⟩
        · rw [c3]; ring
        · intro hnone
          rcases c4 with hemp | ⟨r, hr, hridx, _⟩
          · exact hemp
          · exact absurd hridx (hnone r hr)

/-- C2 witness: a concrete three-bucket request with one returned middle
bucket. -/
theorem aggregate_bucket_layout_witness :
    ({ intervalSize := 2,
       aggregates := { startTime := 0, endTime := 6, transactionVolume := "7",
                       transactionCount := 2, outputCount := 3, addressCount := 1,
                       assetCount := 1 },
       intervals := [{ idx := 0, startTime := 0, endTime := 1 },
                     { idx := 1, startTime := 2, endTime := 3, transactionVolume := "7",
                       transactionCount := 2, outputCount := 3, addressCount := 1,
                       assetCount := 1 },
                     { idx := 2, startTime := 4, endTime := 5 }] } :
      AggregatesHistogram).intervals.length = 3 :=
  (aggregate_bucket_layout { startTime := 0, endTime := 6, intervalSeconds := 2 } 0
    [{ idx := 1, transactionVolume := "7", transactionCount := 2, outputCount := 3,
       addressCount := 1, assetCount := 1 }]
    { intervalSize := 2,
      aggregates := { startTime := 0, endTime := 6, transactionVolume := "7",
                      transactionCount := 2, outputCount := 3, addressCount := 1,
                      assetCount := 1 },
      intervals := [{ idx := 0, startTime := 0, endTime := 1 },
                    { idx := 1, startTime := 2, endTime := 3, transactionVolume := "7",
                      transactionCount := 2, outputCount := 3, addressCount := 1,
                      assetCount := 1 },
                    { idx := 2, startTime := 4, endTime := 5 }] }
    3 rfl (by decide) (by decide) (by decide) (by decide) (by decide) rfl).1

/-- C3: for every successful histogram computation over a nonzero interval
width, the grand-total transaction volume is the decimal rendering of the
big-integer sum of all per-bucket volumes, synthesized buckets counting as
zero. -/
theorem aggregate_total_volume (p : AggregateParams) (ft : Int) (rows : List Aggregates)
    (h : AggregatesHistogram)
    (hw : p.intervalSeconds ≠ 0)
    (hok : (Aggregate p ft rows).1 = .ok h) :
    h.aggregates.transactionVolume = toString ((h.intervals.map bucketVolume).sum) := by
  by_cases hbig :
      intCeilDiv (p.endTime - effectiveStartTime p ft) p.intervalSeconds >
        MaxAggregateIntervalCount
  · simp only [Aggregate, hw, ne_eq, not_false_eq_true, if_true, hbig, and_self, if_pos] at hok
    cases hok
  · simp only [Aggregate, hw, ne_eq, not_false_eq_true, if_true, hbig, and_false, if_neg,
      not_false_eq_true] at hok
    have hn0 :
        (max (intCeilDiv (p.endTime - effectiveStartTime p ft) p.intervalSeconds) 1).toNat ≠
          0 := by
      have h1 : (1 : Int) ≤
          max (intCeilDiv (p.endTime - effectiveStartTime p ft) p.intervalSeconds) 1 :=
        le_max_right _ _
      omega
    rw [if_neg hn0] at hok
    simp only at hok
    cases hass :
        assembleIntervals (effectiveStartTime p ft) p.intervalSeconds rows {} with
    | error e => rw [aggregateMulti, hass] at hok; cases hok
    | ok st =>
      rw [aggregateMulti, hass] at hok
      have heq := (Except.ok.injEq _ _).mp hok
      subst heq
      have hvol := assembleIntervals_volume (effectiveStartTime p ft) p.intervalSeconds rows
        ({} : AssembleState) st hass
      simp only [sumVol_padTo]
      have hz0 : (({} : AssembleState).intervals.map bucketVolume).sum = 0 := rfl
      have hz1 : ({} : AssembleState).totalVolume = 0 := rfl
      rw [hz0, hz1] at hvol
      have : st.totalVolume = (st.intervals.map bucketVolume).sum := by omega
      rw [this]

/-- C3 witness: the three-bucket example; the grand total "7" is the sum of
bucket volumes 0, 7 and 0. -/
theorem aggregate_total_volume_witness :
    ({ intervalSize := 2,
       aggregates := { startTime := 0, endTime := 6, transactionVolume := "7",
                       transactionCount := 2, outputCount := 3, addressCount := 1,
                       assetCount := 1 },
       intervals := [{ idx := 0, startTime := 0, endTime := 1 },
                     { idx := 1, startTime := 2, endTime := 3, transactionVolume := "7",
                       transactionCount := 2, outputCount := 3, addressCount := 1,
                       assetCount := 1 },
                     { idx := 2, startTime := 4, endTime := 5 }] } :
      AggregatesHistogram).aggregates.transactionVolume =
      toString ((({ intervalSize := 2,
                    aggregates := { startTime := 0, endTime := 6, transactionVolume := "7",
                                    transactionCount := 2, outputCount := 3, addressCount := 1,
                                    assetCount := 1 },
                    intervals := [{ idx := 0, startTime := 0, endTime := 1 },
                                  { idx := 1, startTime := 2, endTime := 3,
                                    transactionVolume := "7", transactionCount := 2,
                                    outputCount := 3, addressCount := 1, assetCount := 1 },
                                  { idx := 2, startTime := 4, endTime := 5 }] } :
        AggregatesHistogram).intervals.map bucketVolume).sum) :=
  aggregate_total_volume { startTime := 0, endTime := 6, intervalSeconds := 2 } 0
    [{ idx := 1, transactionVolume := "7", transactionCount := 2, outputCount := 3,
       addressCount := 1, assetCount := 1 }]
    _ (by decide) rfl

/-- C9: an `Aggregate` call with `intervalSize = 0` (and a caller-supplied
start time) succeeds with the single aggregate row spanning
`[startTime, endTime]` and an empty interval sequence — the bucket-padding
path is never entered. -/
theorem aggregate_single_bucket (p : AggregateParams) (ft : Int) (r : Aggregates)
    (rows : List Aggregates)
    (hz : p.startTimeIsZero = false)
    (hw : p.intervalSeconds = 0)
    (hrows : rows = [r]) :
    (Aggregate p ft rows).1 =
      .ok { intervalSize := 0,
            aggregates := { r with startTime := p.startTime, endTime := p.endTime },
            intervals := [] } := by
  subst hrows
  simp [Aggregate, effectiveStartTime, hz, hw]

/-- C9 witness: a concrete zero-width request returns the lone row stamped
with the request's bounds and no intervals. -/
theorem aggregate_single_bucket_witness :
    (Aggregate { startTime := 5, endTime := 9, intervalSeconds := 0 } 0
        [{ transactionVolume := "3", transactionCount := 1 }]).1 =
      .ok { intervalSize := 0,
            aggregates := { startTime := 5, endTime := 9, transactionVolume := "3",
                            transactionCount := 1 },
            intervals := [] } :=
  aggregate_single_bucket { startTime := 5, endTime := 9, intervalSeconds := 0 } 0
    { transactionVolume := "3", transactionCount := 1 } _ rfl rfl rfl

/-- C5 counterexample: an `Aggregate` call with an unset start time whose
computed bucket count exceeds 20000 fails with the over-large error, yet a
storage query (the first-transaction-time lookup) was already issued, so
"issues no storage query" is false as stated. -/
theorem aggregate_interval_guard_counterexample :
    (Aggregate { startTimeIsZero := true, startTime := 0, endTime := 100000,
                 intervalSeconds := 1 } 0 []).1 = .error .intervalCountTooLarge ∧
    (Aggregate { startTimeIsZero := true, startTime := 0, endTime := 100000,
                 intervalSeconds := 1 } 0 []).2 ≠ [] := by
  exact ⟨rfl, by decide⟩

/-- C5 (amended): whenever the computed bucket count exceeds 20000 the call
fails with the over-large error and never issues the aggregate storage
query; when the caller supplied a start time no storage query at all is
issued (an unset start time still costs the preliminary
first-transaction-time lookup). -/
theorem aggregate_interval_count_guard (p : AggregateParams) (ft : Int)
    (rows : List Aggregates)
    (hw : p.intervalSeconds ≠ 0)
    (hbig : intCeilDiv (p.endTime - effectiveStartTime p ft) p.intervalSeconds >
      MaxAggregateIntervalCount) :
    (Aggregate p ft rows).1 = .error .intervalCountTooLarge ∧
    AggregateQuery.aggregateQuery ∉ (Aggregate p ft rows).2 ∧
    (p.startTimeIsZero = false → (Aggregate p ft rows).2 = []) := by
  simp only [Aggregate, hw, ne_eq, not_false_eq_true, if_true, hbig, and_self, if_pos]
  by_cases hz : p.startTimeIsZero
  · simp [hz]
  · simp [hz]

/-- C5 witness: a caller-supplied start time with an over-large bucket count
fails without issuing any storage query. -/
theorem aggregate_interval_count_guard_witness :
    (Aggregate { startTime := 0, endTime := 100000, intervalSeconds := 1 } 0 []).1 =
        .error .intervalCountTooLarge ∧
    (Aggregate { startTime := 0, endTime := 100000, intervalSeconds := 1 } 0 []).2 = [] := by
  have h := aggregate_interval_count_guard
    { startTime := 0, endTime := 100000, intervalSeconds := 1 } 0 [] (by decide) (by decide)
  exact ⟨h.1, h.2.2 rfl⟩

/-! ## Claim theorems: search resolver -/

/-- C4 counterexample: with limit 2, a free-text search whose assets and
transactions pages each return one result has accumulated 2 results — the
limit — after the transactions sub-query, yet the resolver still queries
addresses, because the code compares each individual page size against the
limit rather than the accumulated count. -/
theorem search_accumulated_limit_counterexample :
    1 + 1 ≥ 2 ∧
    (Search 3 false false 2 1 1 5).2 =
      [{ entity := .assets, disableCounting := true },
       { entity := .transactions, disableCounting := true },
       { entity := .addresses, disableCounting := true }] := by
  decide

/-- C4 (amended): a free-text search (query neither a short identifier nor a
full identifier, length at least the minimum) queries assets, then
transactions, then addresses, each with counting disabled, and skips all
subsequent entity types as soon as the result count of the type just queried
reaches the caller's requested limit. -/
theorem search_freetext_order (queryLength limit numAssets numTransactions numAddresses : Nat)
    (hq : MinSearchQueryLength ≤ queryLength) :
    (Search queryLength false false limit numAssets numTransactions numAddresses).1 = .ok () ∧
    (Search queryLength false false limit numAssets numTransactions numAddresses).2 =
      (if numAssets ≥ limit then
         [{ entity := .assets, disableCounting := true }]
       else if numTransactions ≥ limit then
         [{ entity := .assets, disableCounting := true },
          { entity := .transactions, disableCounting := true }]
       else
         [{ entity := .assets, disableCounting := true },
          { entity := .transactions, disableCounting := true },
          { entity := .addresses, disableCounting := true }]) := by
  have hq' : ¬ queryLength < MinSearchQueryLength := by omega
  constructor
  · simp only [Search, if_neg hq']
    split_ifs <;> simp_all
  · simp only [Search, if_neg hq']
    split_ifs <;> simp_all

/-- C4 witness: with limit 3 and one asset result, all three entity types
are queried. -/
theorem search_freetext_order_witness :
    (Search 4 false false 3 1 0 0).2 =
      [{ entity := .assets, disableCounting := true },
       { entity := .transactions, disableCounting := true },
       { entity := .addresses, disableCounting := true }] := by
  have h := (search_freetext_order 4 3 1 0 0 (by decide)).2
  rw [h]
  decide

/-! ## Claim theorems: list-reader pagination counting -/

/-- C6 counterexample: a `ListOutputs` call with counting enabled and an
empty result page returns early — with offset 5 and limit 10 the reported
count is 0, not `offset + 0 = 5`; and with limit 0 the empty page satisfies
`returned rows ≥ limit` yet no count query is issued. -/
theorem list_outputs_empty_page_counterexample :
    (listOutputsCount { listParams := { limit := 10, offset := 5 } } 0 42).1 = 0 ∧
    (listOutputsCount { listParams := { limit := 10, offset := 5 } } 0 42).1 ≠ 5 + 0 ∧
    0 ≥ 0 ∧
    (listOutputsCount { listParams := { limit := 0, offset := 0 } } 0 42).2.1 = false := by
  decide

/-- C6 (amended): for every `ListTransactions`, `ListAssets` or
`ListAddresses` call with counting enabled, the follow-up counting query is
issued if and only if the returned page is saturated (returned row count at
least the requested limit), and otherwise the reported count is
`offset + returned row count`; `ListOutputs` behaves the same on a non-empty
page, but an empty page returns early with count 0 — no count query and no
offset approximation. -/
theorem list_count_saturation (numRows dbCount : Nat) :
    (∀ p : ListTransactionsParams, p.listParams.disableCounting = false →
      ((listTransactionsCount p numRows dbCount).2.1 = true ↔ numRows ≥ p.listParams.limit) ∧
      (numRows < p.listParams.limit →
        (listTransactionsCount p numRows dbCount).1 = p.listParams.offset + numRows)) ∧
    (∀ p : ListAssetsParams, p.listParams.disableCounting = false →
      ((listAssetsCount p numRows dbCount).2.1 = true ↔ numRows ≥ p.listParams.limit) ∧
      (numRows < p.listParams.limit →
        (listAssetsCount p numRows dbCount).1 = p.listParams.offset + numRows)) ∧
    (∀ p : ListAddressesParams, p.listParams.disableCounting = false →
      ((listAddressesCount p numRows dbCount).2.1 = true ↔ numRows ≥ p.listParams.limit) ∧
      (numRows < p.listParams.limit →
        (listAddressesCount p numRows dbCount).1 = p.listParams.offset + numRows)) ∧
    (∀ p : ListOutputsParams,
      (numRows = 0 → listOutputsCount p numRows dbCount = (0, false, p)) ∧
      (p.listParams.disableCounting = false → 1 ≤ numRows →
        ((listOutputsCount p numRows dbCount).2.1 = true ↔ numRows ≥ p.listParams.limit) ∧
        (numRows < p.listParams.limit →
          (listOutputsCount p numRows dbCount).1 = p.listParams.offset + numRows))) := by
  refine ⟨?_, ?_, ?_, ?_⟩
  · intro p hdc
    constructor
    · by_cases h : numRows ≥ p.listParams.limit <;> simp [listTransactionsCount, hdc, h]
    · intro hlt
      have h : ¬ numRows ≥ p.listParams.limit := by omega
      simp [listTransactionsCount, hdc, h]
  · intro p hdc
    constructor
    · by_cases h : numRows ≥ p.listParams.limit <;> simp [listAssetsCount, hdc, h]
    · intro hlt
      have h : ¬ numRows ≥ p.listParams.limit := by omega
      simp [listAssetsCount, hdc, h]
  · intro p hdc
    constructor
    · by_cases h : numRows ≥ p.listParams.limit <;> simp [listAddressesCount, hdc, h]
    · intro hlt
      have h : ¬ numRows ≥ p.listParams.limit := by omega
      simp [listAddressesCount, hdc, h]
  · intro p
    constructor
    · intro h0
      subst h0
      simp [listOutputsCount]
    · intro hdc h1
      have hn : ¬ numRows < 1 := by omega
      constructor
      · by_cases h : numRows ≥ p.listParams.limit <;> simp [listOutputsCount, hn, hdc, h]
      · intro hlt
        have h : ¬ numRows ≥ p.listParams.limit := by omega
        simp [listOutputsCount, hn, hdc, h]

/-- C6 witness: a saturated transactions page of 10 rows with limit 10
issues a count query; 9 rows with limit 10 reports offset + 9; an empty
outputs page with offset 5 reports count 0 without a count query. -/
theorem list_count_saturation_witness :
    (listTransactionsCount { listParams := { limit := 10, offset := 3 } } 10 42).2.1 = true ∧
    (listTransactionsCount { listParams := { limit := 10, offset := 3 } } 9 42).1 = 3 + 9 ∧
    listOutputsCount { listParams := { limit := 10, offset := 5 } } 0 42 =
      (0, false, { listParams := { limit := 10, offset := 5 } }) := by
  refine ⟨?_, ?_, ?_⟩
  · exact ((list_count_saturation 10 42).1 { listParams := { limit := 10, offset := 3 } }
      rfl).1.mpr (by decide)
  · exact ((list_count_saturation 9 42).1 { listParams := { limit := 10, offset := 3 } }
      rfl).2 (by decide)
  · exact ((list_count_saturation 0 42).2.2.2 { listParams := { limit := 10, offset := 5 } }).1
      rfl

/-- C10: for every `List*` call in which the follow-up count query is
actually issued, the caller's parameter object comes back with its embedded
`ListParams` cleared to the zero value, so a caller whose `ListParams` was
not already zero does not get its original parameter object back.  Stated
for all four readers (for `ListOutputs` the count query is only issued on a
non-empty saturated page, the early-returned empty page being untouched). -/
theorem list_count_clears_params (numRows dbCount : Nat) :
    (∀ p : ListTransactionsParams, (listTransactionsCount p numRows dbCount).2.1 = true →
      (listTransactionsCount p numRows dbCount).2.2.listParams = ({} : ListParams) ∧
      (p.listParams ≠ ({} : ListParams) → (listTransactionsCount p numRows dbCount).2.2 ≠ p)) ∧
    (∀ p : ListAssetsParams, (listAssetsCount p numRows dbCount).2.1 = true →
      (listAssetsCount p numRows dbCount).2.2.listParams = ({} : ListParams) ∧
      (p.listParams ≠ ({} : ListParams) → (listAssetsCount p numRows dbCount).2.2 ≠ p)) ∧
    (∀ p : ListAddressesParams, (listAddressesCount p numRows dbCount).2.1 = true →
      (listAddressesCount p numRows dbCount).2.2.listParams = ({} : ListParams) ∧
      (p.listParams ≠ ({} : ListParams) → (listAddressesCount p numRows dbCount).2.2 ≠ p)) ∧
    (∀ p : ListOutputsParams, (listOutputsCount p numRows dbCount).2.1 = true →
      (listOutputsCount p numRows dbCount).2.2.listParams = ({} : ListParams) ∧
      (p.listParams ≠ ({} : ListParams) → (listOutputsCount p numRows dbCount).2.2 ≠ p)) := by
  refine ⟨?_, ?_, ?_, ?_⟩
  · intro p htrig
    simp only [listTransactionsCount] at htrig ⊢
    split_ifs at htrig ⊢ <;>
      first
      | exact Bool.noConfusion htrig
      | exact ⟨rfl, fun hne heq => hne ((congrArg (fun q => q.listParams) heq).symm)⟩
  · intro p htrig
    simp only [listAssetsCount] at htrig ⊢
    split_ifs at htrig ⊢ <;>
      first
      | exact Bool.noConfusion htrig
      | exact ⟨rfl, fun hne heq => hne ((congrArg (fun q => q.listParams) heq).symm)⟩
  · intro p htrig
    simp only [listAddressesCount] at htrig ⊢
    split_ifs at htrig ⊢ <;>
      first
      | exact Bool.noConfusion htrig
      | exact ⟨rfl, fun hne heq => hne ((congrArg (fun q => q.listParams) heq).symm)⟩
  · intro p htrig
    simp only [listOutputsCount] at htrig ⊢
    split_ifs at htrig ⊢ <;>
      first
      | exact Bool.noConfusion htrig
      | exact ⟨rfl, fun hne heq => hne ((congrArg (fun q => q.listParams) heq).symm)⟩

/-- C10 witness: a saturated transactions page and a saturated non-empty
outputs page both clear the caller's embedded list parameters. -/
theorem list_count_clears_params_witness :
    ((listTransactionsCount { listParams := { limit := 2, offset := 7 }, query := "q" } 2 0).2.2).listParams =
      ({} : ListParams) ∧
    ((listOutputsCount { listParams := { limit := 2, offset := 7 }, query := "q" } 2 0).2.2).listParams =
      ({} : ListParams) :=
  ⟨(((list_count_clears_params 2 0).1
      { listParams := { limit := 2, offset := 7 }, query := "q" }) (by decide)).1,
   (((list_count_clears_params 2 0).2.2.2
      { listParams := { limit := 2, offset := 7 }, query := "q" }) (by decide)).1⟩

/-! ## Claim theorems: transaction sort policy -/

/-- C8 counterexample: with no free-text filter and ascending sort, the
reader's first ORDER BY clause is the chain identifier and the second is the
creation time — chain identifier is the primary key, not the secondary key
the claim states. -/
theorem transaction_sort_counterexample :
    applySort "" .timestampAsc =
      [{ column := "avm_transactions.chain_id", ascending := true },
       { column := "avm_transactions.created_at", ascending := true }] ∧
    [({ column := "avm_transactions.chain_id", ascending := true } : OrderClause),
     { column := "avm_transactions.created_at", ascending := true }] ≠
      [{ column := "avm_transactions.created_at", ascending := true },
       { column := "avm_transactions.chain_id", ascending := true }] := by
  exact ⟨rfl, by decide⟩

/-- C8 (amended): when a free-text query filter is active no explicit ORDER
BY is applied; otherwise the ordering is by chain identifier ascending as
the primary sort key with ascending or descending creation time as the
secondary key, and an unrecognized sort value is treated as the default
order rather than producing an error. -/
theorem transaction_sort_policy :
    (∀ (q : String) (s : TransactionSort), q ≠ "" → applySort q s = []) ∧
    applySort "" .timestampAsc =
      [{ column := "avm_transactions.chain_id", ascending := true },
       { column := "avm_transactions.created_at", ascending := true }] ∧
    applySort "" .timestampDesc =
      [{ column := "avm_transactions.chain_id", ascending := true },
       { column := "avm_transactions.created_at", ascending := false }] ∧
    applySort "" .unrecognized = applySort "" transactionSortDefault := by
  refine ⟨?_, rfl, rfl, rfl⟩
  intro q s hq
  simp [applySort, hq]

/-- C8 witness: a free-text query suppresses explicit ordering. -/
theorem transaction_sort_policy_witness :
    applySort "x" TransactionSort.timestampAsc = [] :=
  transaction_sort_policy.1 "x" .timestampAsc (by decide)

/-! ## Lemmas about association lists -/

theorem alLookup_alUpsert_self {K V : Type} [DecidableEq K] (l : List (K × V)) (k : K) (v : V) :
    alLookup (alUpsert l k v) k = some v := by
  induction l with
  | nil => simp [alUpsert, alLookup]
  | cons kv t ih =>
    by_cases h : kv.1 = k
    · simp [alUpsert, h, alLookup]
    · simp [alUpsert, h, alLookup, ih]

theorem alLookup_alUpsert_ne {K V : Type} [DecidableEq K] (l : List (K × V)) (k k' : K) (v : V)
    (h : k' ≠ k) : alLookup (alUpsert l k v) k' = alLookup l k' := by
  induction l with
  | nil => simp [alUpsert, alLookup, Ne.symm h]
  | cons kv t ih =>
    by_cases hk : kv.1 = k
    · subst hk
      simp [alUpsert, alLookup, Ne.symm h]
    · by_cases hk' : kv.1 = k'
      · simp [alUpsert, hk, alLookup, hk', h]
      · simp [alUpsert, hk, alLookup, hk', ih]

theorem alLookup_mem {K V : Type} [DecidableEq K] (l : List (K × V)) (k : K) (v : V)
    (h : alLookup l k = some v) : (k, v) ∈ l := by
  induction l with
  | nil => simp [alLookup] at h
  | cons kv t ih =>
    by_cases hk : kv.1 = k
    · rw [alLookup, if_pos hk] at h
      have hv := Option.some.inj h
      cases kv with
      | mk k0 v0 =>
        simp only at hk hv
        subst hk
        subst hv
        exact List.mem_cons_self _ _
    · rw [alLookup, if_neg hk] at h
      exact List.mem_cons_of_mem _ (ih h)

theorem mem_alUpsert {K V : Type} [DecidableEq K] (l : List (K × V)) (k : K) (v : V) :
    ∀ x ∈ alUpsert l k v, x = (k, v) ∨ x ∈ l := by
  induction l with
  | nil => intro x hx; simp [alUpsert] at hx; simp [hx]
  | cons kv t ih =>
    intro x hx
    by_cases hk : kv.1 = k
    · rw [alUpsert, if_pos hk] at hx
      rcases List.mem_cons.mp hx with h | h
      · exact Or.inl h
      · exact Or.inr (List.mem_cons_of_mem _ h)
    · rw [alUpsert, if_neg hk] at hx
      rcases List.mem_cons.mp hx with h | h
      · exact Or.inr (by simp [h])
      · rcases ih x h with h' | h'
        · exact Or.inl h'
        · exact Or.inr (List.mem_cons_of_mem _ h')

theorem alLookup_alUpdate_self {K V : Type} [DecidableEq K] (l : List (K × V)) (k : K)
    (f : V → V) : alLookup (alUpdate l k f) k = (alLookup l k).map f := by
  induction l with
  | nil => simp [alUpdate, alLookup]
  | cons kv t ih =>
    by_cases h : kv.1 = k
    · simp [alUpdate, h, alLookup]
    · simp [alUpdate, h, alLookup, ih]

theorem alLookup_alUpdate_ne {K V : Type} [DecidableEq K] (l : List (K × V)) (k k' : K)
    (f : V → V) (h : k' ≠ k) : alLookup (alUpdate l k f) k' = alLookup l k' := by
  induction l with
  | nil => simp [alUpdate, alLookup]
  | cons kv t ih =>
    by_cases hk : kv.1 = k
    · subst hk
      simp [alUpdate, alLookup, Ne.symm h]
    · by_cases hk' : kv.1 = k'
      · simp [alUpdate, hk, alLookup, hk', h]
      · simp [alUpdate, hk, alLookup, hk', ih]

theorem mem_alUpdate {K V : Type} [DecidableEq K] (l : List (K × V)) (k : K) (f : V → V) :
    ∀ x ∈ alUpdate l k f, x ∈ l ∨ ∃ v, (k, v) ∈ l ∧ x = (k, f v) := by
  induction l with
  | nil => intro x hx; simp [alUpdate] at hx
  | cons kv t ih =>
    intro x hx
    by_cases hk : kv.1 = k
    · rw [alUpdate, if_pos hk] at hx
      rcases List.mem_cons.mp hx with h | h
      · subst hk
        exact Or.inr ⟨kv.2, by simp [h]⟩
      · exact Or.inl (List.mem_cons_of_mem _ h)
    · rw [alUpdate, if_neg hk] at hx
      rcases List.mem_cons.mp hx with h | h
      · exact Or.inl (by simp [h])
      · rcases ih x h with h' | ⟨v, hv, hx'⟩
        · exact Or.inl (List.mem_cons_of_mem _ h')
        · exact Or.inr ⟨v, List.mem_cons_of_mem _ hv, hx'⟩

/-- Looking an asset up in a transaction's formatted totals is looking the
`(transaction, asset)` pair up in the flattened totals map. -/
theorem alLookup_totals_projection (m : List ((StringID × StringID) × Int)) (T a : StringID) :
    alLookup ((m.filter (fun kv => kv.1.1 == T)).map (fun kv => (kv.1.2, toString kv.2))) a =
      (alLookup m (T, a)).map (fun v : Int => toString v) := by
  induction m with
  | nil => rfl
  | cons kv t ih =>
    by_cases h1 : kv.1.1 = T
    · by_cases h2 : kv.1.2 = a
      · have hk : kv.1 = (T, a) := by
          cases hkv : kv.1
          simp [hkv] at h1 h2
          simp [h1, h2]
        simp [List.filter_cons, h1, alLookup, hk, h2]
      · have hk : kv.1 ≠ (T, a) := by
          intro hc
          exact h2 (by rw [hc])
        simp [List.filter_cons, h1, alLookup, h2, hk, ih]
    · have hk : kv.1 ≠ (T, a) := by
        intro hc
        exact h1 (by rw [hc])
      simp [List.filter_cons, h1, alLookup, hk, ih]

/-! ## Lemmas about the dressing passes -/

theorem collectRows_outputTotals (rows : List CompositeRecord) :
    ∀ (st st' : DressState) (T A : StringID),
      collectRows rows st = .ok st' →
      alLookup st'.outputTotalsMap (T, A) =
        (if outputRowsFor rows T A = [] then alLookup st.outputTotalsMap (T, A)
         else some ((alLookup st.outputTotalsMap (T, A)).getD 0 +
           rowAmountSum (outputRowsFor rows T A))) := by
  induction rows with
  | nil =>
    intro st st' T A hok
    rw [collectRows] at hok
    cases hok
    simp [outputRowsFor]
  | cons r rest ih =>
    intro st st' T A hok
    rw [collectRows, collectRow] at hok
    cases hparse : parseBigInt r.amount with
    | none => rw [hparse] at hok; cases hok
    | some amt =>
      rw [hparse] at hok
      simp only at hok
      have ihst := ih _ st' T A hok
      by_cases hmatch : r.transactionID = T ∧ r.assetID = A
      · obtain ⟨hT, hA⟩ := hmatch
        have hfil : outputRowsFor (r :: rest) T A = r :: outputRowsFor rest T A := by
          simp [outputRowsFor, List.filter_cons, hT, hA]
        have hlook :
            alLookup (addToBigIntMap st.outputTotalsMap r.transactionID r.assetID amt) (T, A) =
              some (amt + (alLookup st.outputTotalsMap (T, A)).getD 0) := by
          rw [addToBigIntMap, hT, hA]
          exact alLookup_alUpsert_self _ _ _
        rw [hlook] at ihst
        rw [ihst, hfil]
        have hsum : rowAmountSum (r :: outputRowsFor rest T A) =
            amt + rowAmountSum (outputRowsFor rest T A) := by
          simp [rowAmountSum, hparse]
        rw [if_neg (List.cons_ne_nil _ _), hsum]
        by_cases hrest : outputRowsFor rest T A = []
        · rw [if_pos hrest, hrest]
          simp only [rowAmountSum, List.map_nil, List.sum_nil, Option.some.injEq]
          omega
        · rw [if_neg hrest]
          simp only [Option.getD_some, Option.some.injEq]
          omega
      · have hfil : outputRowsFor (r :: rest) T A = outputRowsFor rest T A := by
          simp only [outputRowsFor, List.filter_cons]
          rw [if_neg]
          simp only [Bool.and_eq_true, beq_iff_eq]
          intro hc
          exact hmatch ⟨hc.1, hc.2⟩
        have hlook :
            alLookup (addToBigIntMap st.outputTotalsMap r.transactionID r.assetID amt) (T, A) =
              alLookup st.outputTotalsMap (T, A) := by
          rw [addToBigIntMap]
          apply alLookup_alUpsert_ne
          intro hc
          rw [Prod.mk.injEq] at hc
          exact hmatch ⟨hc.1.symm, hc.2.symm⟩
        rw [hlook] at ihst
        rw [ihst, hfil]

theorem collectRows_inputTotals (rows : List CompositeRecord) :
    ∀ (st st' : DressState) (T A : StringID),
      collectRows rows st = .ok st' →
      alLookup st'.inputTotalsMap (T, A) =
        (if inputRowsFor rows T A = [] then alLookup st.inputTotalsMap (T, A)
         else some ((alLookup st.inputTotalsMap (T, A)).getD 0 +
           rowAmountSum (inputRowsFor rows T A))) := by
  induction rows with
  | nil =>
    intro st st' T A hok
    rw [collectRows] at hok
    cases hok
    simp [inputRowsFor]
  | cons r rest ih =>
    intro st st' T A hok
    rw [collectRows, collectRow] at hok
    cases hparse : parseBigInt r.amount with
    | none => rw [hparse] at hok; cases hok
    | some amt =>
      rw [hparse] at hok
      simp only at hok
      have ihst := ih _ st' T A hok
      by_cases hmatch : r.redeemingTransactionID = T ∧ r.assetID = A
      · obtain ⟨hT, hA⟩ := hmatch
        have hfil : inputRowsFor (r :: rest) T A = r :: inputRowsFor rest T A := by
          simp [inputRowsFor, List.filter_cons, hT, hA]
        have hlook :
            alLookup (addToBigIntMap st.inputTotalsMap r.redeemingTransactionID r.assetID amt)
                (T, A) =
              some (amt + (alLookup st.inputTotalsMap (T, A)).getD 0) := by
          rw [addToBigIntMap, hT, hA]
          exact alLookup_alUpsert_self _ _ _
        rw [hlook] at ihst
        rw [ihst, hfil]
        have hsum : rowAmountSum (r :: inputRowsFor rest T A) =
            amt + rowAmountSum (inputRowsFor rest T A) := by
          simp [rowAmountSum, hparse]
        rw [if_neg (List.cons_ne_nil _ _), hsum]
        by_cases hrest : inputRowsFor rest T A = []
        · rw [if_pos hrest, hrest]
          simp only [rowAmountSum, List.map_nil, List.sum_nil, Option.some.injEq]
          omega
        · rw [if_neg hrest]
          simp only [Option.getD_some, Option.some.injEq]
          omega
      · have hfil : inputRowsFor (r :: rest) T A = inputRowsFor rest T A := by
          simp only [inputRowsFor, List.filter_cons]
          rw [if_neg]
          simp only [Bool.and_eq_true, beq_iff_eq]
          intro hc
          exact hmatch ⟨hc.1, hc.2⟩
        have hlook :
            alLookup (addToBigIntMap st.inputTotalsMap r.redeemingTransactionID r.assetID amt)
                (T, A) =
              alLookup st.inputTotalsMap (T, A) := by
          rw [addToBigIntMap]
          apply alLookup_alUpsert_ne
          intro hc
          rw [Prod.mk.injEq] at hc
          exact hmatch ⟨hc.1.symm, hc.2.symm⟩
        rw [hlook] at ihst
        rw [ihst, hfil]

/-- Destructure a successful dressing call: the first pass succeeded and
every dressed transaction is `dressOne` of a batch member. -/
theorem dressTransactions_ok_elim (txs : List TransactionModel) (rows : List CompositeRecord)
    (txs' : List TransactionModel) (tx' : TransactionModel)
    (hok : dressTransactions txs rows = .ok txs') (htx : tx' ∈ txs') :
    ∃ st, collectRows rows ({} : DressState) = .ok st ∧
      ∃ tx, tx ∈ txs ∧ tx' = dressOne st rows tx := by
  rw [dressTransactions] at hok
  by_cases hnil : txs = []
  · rw [if_pos hnil] at hok
    cases hok
    subst hnil
    simp at htx
  · rw [if_neg hnil] at hok
    cases hcollect : collectRows rows ({} : DressState) with
    | error e => rw [hcollect] at hok; cases hok
    | ok st =>
      rw [hcollect] at hok
      simp only at hok
      have heq := (Except.ok.injEq _ _).mp hok
      subst heq
      obtain ⟨tx, htxmem, htxeq⟩ := List.mem_map.mp htx
      exact ⟨st, rfl, tx, htxmem, htxeq.symm⟩

/-! ## Claim theorems: transaction dressing totals -/

/-- C1: in a successfully dressed batch, every transaction's per-asset
output (input) total is exactly the decimal rendering of the big-integer sum
of the amounts of the merged rows whose owning (redeeming) transaction is
that transaction, absent when no row matches; consequently a row of amount
`v` owned by `T1` and redeemed by `T2` contributes `v` to both
`T1.OutputTotals` and `T2.InputTotals` for its asset (with non-negative
amounts, each total includes `v`). -/
theorem dress_transaction_totals (txs : List TransactionModel) (rows : List CompositeRecord)
    (txs' : List TransactionModel) (tx' : TransactionModel) (a : StringID)
    (hok : dressTransactions txs rows = .ok txs')
    (htx : tx' ∈ txs') :
    (alLookup tx'.outputTotals a =
      (if outputRowsFor rows tx'.id a = [] then none
       else some (toString (rowAmountSum (outputRowsFor rows tx'.id a))))) ∧
    (alLookup tx'.inputTotals a =
      (if inputRowsFor rows tx'.id a = [] then none
       else some (toString (rowAmountSum (inputRowsFor rows tx'.id a))))) ∧
    (∀ r ∈ rows, ∀ v : Int, parseBigInt r.amount = some v →
      (∀ x ∈ rows, 0 ≤ (parseBigInt x.amount).getD 0) →
      (r.transactionID = tx'.id → r.assetID = a →
        v ≤ rowAmountSum (outputRowsFor rows tx'.id a)) ∧
      (r.redeemingTransactionID = tx'.id → r.assetID = a →
        v ≤ rowAmountSum (inputRowsFor rows tx'.id a))) := by
  obtain ⟨st, hcollect, tx, htxmem, htxeq⟩ := dressTransactions_ok_elim txs rows txs' tx' hok htx
  have hid : tx'.id = tx.id := by rw [htxeq]; rfl
  have hout := collectRows_outputTotals rows ({} : DressState) st tx'.id a hcollect
  have hin := collectRows_inputTotals rows ({} : DressState) st tx'.id a hcollect
  have hbase : alLookup (({} : DressState).outputTotalsMap) (tx'.id, a) = none := rfl
  have hbase' : alLookup (({} : DressState).inputTotalsMap) (tx'.id, a) = none := rfl
  rw [hbase] at hout
  rw [hbase'] at hin
  simp only [Option.getD_none, zero_add] at hout hin
  refine ⟨?_, ?_, ?_⟩
  · have hproj : alLookup tx'.outputTotals a =
        (alLookup st.outputTotalsMap (tx'.id, a)).map (fun v : Int => toString v) := by
      rw [htxeq]
      simp only [dressOne]
      exact alLookup_totals_projection st.outputTotalsMap tx.id a
    rw [hproj, hout]
    by_cases hr : outputRowsFor rows tx'.id a = []
    · rw [if_pos hr, if_pos hr]
      rfl
    · rw [if_neg hr, if_neg hr]
      rfl
  · have hproj : alLookup tx'.inputTotals a =
        (alLookup st.inputTotalsMap (tx'.id, a)).map (fun v : Int => toString v) := by
      rw [htxeq]
      simp only [dressOne]
      exact alLookup_totals_projection st.inputTotalsMap tx.id a
    rw [hproj, hin]
    by_cases hr : inputRowsFor rows tx'.id a = []
    · rw [if_pos hr, if_pos hr]
      rfl
    · rw [if_neg hr, if_neg hr]
      rfl
  · intro r hr v hparse hpos
    have hv : (parseBigInt r.amount).getD 0 = v := by rw [hparse]; rfl
    constructor
    · intro hT hA
      have hmem : r ∈ outputRowsFor rows tx'.id a := by
        refine List.mem_filter.mpr ⟨hr, ?_⟩
        simp [hT, hA]
      have hmem2 : v ∈ (outputRowsFor rows tx'.id a).map
          (fun x => (parseBigInt x.amount).getD 0) := by
        rw [← hv]
        exact List.mem_map_of_mem _ hmem
      have hnn : ∀ x ∈ (outputRowsFor rows tx'.id a).map
          (fun x => (parseBigInt x.amount).getD 0), 0 ≤ x := by
        intro x hx
        obtain ⟨y, hy, hxy⟩ := List.mem_map.mp hx
        rw [← hxy]
        exact hpos y (List.mem_filter.mp hy).1
      exact List.single_le_sum hnn _ hmem2
    · intro hT hA
      have hmem : r ∈ inputRowsFor rows tx'.id a := by
        refine List.mem_filter.mpr ⟨hr, ?_⟩
        simp [hT, hA]
      have hmem2 : v ∈ (inputRowsFor rows tx'.id a).map
          (fun x => (parseBigInt x.amount).getD 0) := by
        rw [← hv]
        exact List.mem_map_of_mem _ hmem
      have hnn : ∀ x ∈ (inputRowsFor rows tx'.id a).map
          (fun x => (parseBigInt x.amount).getD 0), 0 ≤ x := by
        intro x hx
        obtain ⟨y, hy, hxy⟩ := List.mem_map.mp hx
        rw [← hxy]
        exact hpos y (List.mem_filter.mp hy).1
      exact List.single_le_sum hnn _ hmem2

/-- C1 witness: one output row of amount 5 owned by T1 and redeemed by T2
yields InputTotals["A"] = "5" on the dressed T2. -/
theorem dress_transaction_totals_witness :
    alLookup
      ({ id := "T2",
         inputs := [{ output := { id := "O1", transactionID := "T1", assetID := "A",
                                  amount := "5", redeemingTransactionID := "T2",
                                  addresses := ["a1"] },
                      creds := [{ address := "a1", publicKey := "p1", signature := "s1" }] }],
         inputTotals := [("A", "5")] } : TransactionModel).inputTotals "A" = some "5" := by
  have h := (dress_transaction_totals
    [{ id := "T1" }, { id := "T2" }]
    [{ id := "O1", transactionID := "T1", assetID := "A", amount := "5",
       redeemingTransactionID := "T2", outputID := "O1", address := "a1",
       signature := "s1", publicKey := "p1" }]
    [{ id := "T1",
       outputs := [{ id := "O1", transactionID := "T1", assetID := "A", amount := "5",
                     redeemingTransactionID := "T2", addresses := ["a1"] }],
       outputTotals := [("A", "5")] },
     { id := "T2",
       inputs := [{ output := { id := "O1", transactionID := "T1", assetID := "A",
                                amount := "5", redeemingTransactionID := "T2",
                                addresses := ["a1"] },
                    creds := [{ address := "a1", publicKey := "p1", signature := "s1" }] }],
       inputTotals := [("A", "5")] }]
    { id := "T2",
      inputs := [{ output := { id := "O1", transactionID := "T1", assetID := "A",
                               amount := "5", redeemingTransactionID := "T2",
                               addresses := ["a1"] },
                   creds := [{ address := "a1", publicKey := "p1", signature := "s1" }] }],
      inputTotals := [("A", "5")] }
    "A" rfl (by decide)).2.1
  rw [h]
  rfl

/-! ## Lemmas about addresses, outputs/inputs maps and credentials -/

theorem collectRows_outputAddrs (rows : List CompositeRecord) :
    ∀ (st st' : DressState) (X : StringID),
      collectRows rows st = .ok st' →
      st'.outputAddrs X =
        (rows.filter (fun r => r.id == X)).foldl
          (fun acc r => if r.address ∈ acc then acc else acc ++ [r.address])
          (st.outputAddrs X) := by
  induction rows with
  | nil =>
    intro st st' X hok
    rw [collectRows] at hok
    cases hok
    rfl
  | cons r rest ih =>
    intro st st' X hok
    rw [collectRows, collectRow] at hok
    cases hparse : parseBigInt r.amount with
    | none => rw [hparse] at hok; cases hok
    | some amt =>
      rw [hparse] at hok
      simp only at hok
      have ihst := ih _ st' X hok
      by_cases hX : r.id = X
      · have haddr : addAddr st.outputAddrs r.id r.address X =
            (if r.address ∈ st.outputAddrs X then st.outputAddrs X
             else st.outputAddrs X ++ [r.address]) := by
          rw [addAddr, if_pos hX.symm, hX]
        rw [ihst]
        simp only [haddr]
        simp [List.filter_cons, hX]
      · have haddr : addAddr st.outputAddrs r.id r.address X = st.outputAddrs X := by
          rw [addAddr, if_neg (fun hc => hX hc.symm)]
        rw [ihst]
        simp only [haddr]
        simp [List.filter_cons, hX]

theorem collectRows_outputsMap (rows : List CompositeRecord) :
    ∀ (st st' : DressState) (k : StringID × StringID) (v : OutputModel),
      collectRows rows st = .ok st' →
      (∀ r ∈ rows, (r.transactionID, r.id) = k → r.toOutput = v) →
      (alLookup st.outputsMap k = some v ∨ ∃ r ∈ rows, (r.transactionID, r.id) = k) →
      alLookup st'.outputsMap k = some v := by
  induction rows with
  | nil =>
    intro st st' k v hok hall hbase
    rw [collectRows] at hok
    cases hok
    rcases hbase with h | ⟨r, hr, _⟩
    · exact h
    · simp at hr
  | cons r rest ih =>
    intro st st' k v hok hall hbase
    rw [collectRows, collectRow] at hok
    cases hparse : parseBigInt r.amount with
    | none => rw [hparse] at hok; cases hok
    | some amt =>
      rw [hparse] at hok
      simp only at hok
      refine ih _ st' k v hok (fun x hx => hall x (List.mem_cons_of_mem r hx)) ?_
      by_cases hk : (r.transactionID, r.id) = k
      · left
        have hv := hall r (List.mem_cons_self r rest) hk
        rw [← hk, ← hv]
        exact alLookup_alUpsert_self _ _ _
      · rcases hbase with h | ⟨r', hr', hk'⟩
        · left
          rw [alLookup_alUpsert_ne _ _ _ _ (fun hc => hk hc.symm)]
          exact h
        · rcases List.mem_cons.mp hr' with h' | h'
          · subst h'
            exact absurd hk' hk
          · exact Or.inr ⟨r', h', hk'⟩

theorem collectRows_inputsMap (rows : List CompositeRecord) :
    ∀ (st st' : DressState) (k : StringID × StringID) (v : InputModel),
      collectRows rows st = .ok st' →
      (∀ r ∈ rows, (r.redeemingTransactionID, r.id) = k →
        ({ output := r.toOutput } : InputModel) = v) →
      (alLookup st.inputsMap k = some v ∨
        ∃ r ∈ rows, (r.redeemingTransactionID, r.id) = k) →
      alLookup st'.inputsMap k = some v := by
  induction rows with
  | nil =>
    intro st st' k v hok hall hbase
    rw [collectRows] at hok
    cases hok
    rcases hbase with h | ⟨r, hr, _⟩
    · exact h
    · simp at hr
  | cons r rest ih =>
    intro st st' k v hok hall hbase
    rw [collectRows, collectRow] at hok
    cases hparse : parseBigInt r.amount with
    | none => rw [hparse] at hok; cases hok
    | some amt =>
      rw [hparse] at hok
      simp only at hok
      refine ih _ st' k v hok (fun x hx => hall x (List.mem_cons_of_mem r hx)) ?_
      by_cases hk : (r.redeemingTransactionID, r.id) = k
      · left
        have hv := hall r (List.mem_cons_self r rest) hk
        rw [← hk, ← hv]
        exact alLookup_alUpsert_self _ _ _
      · rcases hbase with h | ⟨r', hr', hk'⟩
        · left
          rw [alLookup_alUpsert_ne _ _ _ _ (fun hc => hk hc.symm)]
          exact h
        · rcases List.mem_cons.mp hr' with h' | h'
          · subst h'
            exact absurd hk' hk
          · exact Or.inr ⟨r', h', hk'⟩

theorem collectRows_inputsMap_inv (rows : List CompositeRecord) :
    ∀ (st st' : DressState),
      collectRows rows st = .ok st' →
      (∀ kv ∈ st.inputsMap, (kv.2 : InputModel).output.id = kv.1.2) →
      ∀ kv ∈ st'.inputsMap, kv.2.output.id = kv.1.2 := by
  induction rows with
  | nil =>
    intro st st' hok hinv
    rw [collectRows] at hok
    cases hok
    exact hinv
  | cons r rest ih =>
    intro st st' hok hinv
    rw [collectRows, collectRow] at hok
    cases hparse : parseBigInt r.amount with
    | none => rw [hparse] at hok; cases hok
    | some amt =>
      rw [hparse] at hok
      simp only at hok
      refine ih _ st' hok ?_
      intro kv hkv
      rcases mem_alUpsert _ _ _ kv hkv with h | h
      · subst h
        rfl
      · exact hinv kv h

/-- On maps whose stored inputs wrap the output their key names, the Go
match-by-output-identity scan is exactly an update at key `(rtx, outID)`. -/
theorem appendCred_eq (cred : InputCredentials) (rtx outID : StringID)
    (m : List ((StringID × StringID) × InputModel))
    (hinv : ∀ kv ∈ m, kv.2.output.id = kv.1.2) :
    appendCred cred rtx outID m =
      alUpdate m (rtx, outID) (fun inp => { inp with creds := inp.creds ++ [cred] }) := by
  induction m with
  | nil => rfl
  | cons kv t ih =>
    have hhead := hinv kv (List.mem_cons_self kv t)
    cases kv with
    | mk k inp =>
      simp only at hhead
      rw [appendCred, alUpdate]
      by_cases hc : k = (rtx, outID)
      · subst hc
        simp [hhead]
      · rw [if_neg hc, if_neg]
        · rw [ih (fun x hx => hinv x (List.mem_cons_of_mem _ hx))]
        · intro hand
          apply hc
          have h2 : k.2 = outID := by rw [← hhead]; exact hand.2
          cases k
          simp only at hand h2
          simp [hand.1, h2]

/-- Updating only a stored input's credentials preserves the
output-matches-key invariant. -/
theorem alUpdate_creds_inv (m : List ((StringID × StringID) × InputModel))
    (k : StringID × StringID) (f : InputModel → InputModel)
    (hf : ∀ v, (f v).output = v.output)
    (hinv : ∀ kv ∈ m, kv.2.output.id = kv.1.2) :
    ∀ kv ∈ alUpdate m k f, kv.2.output.id = kv.1.2 := by
  intro kv hkv
  rcases mem_alUpdate m k f kv hkv with h | ⟨v, hv, hkv'⟩
  · exact hinv kv h
  · subst hkv'
    simp only [hf v]
    exact hinv (k, v) hv

/-- Second-pass characterization: looking up an input after `attachCreds`
appends, in row order, exactly the credentials of the signed rows keyed by
that input's `(redeeming transaction, output)` pair. -/
theorem attachCreds_lookup (rows : List CompositeRecord) :
    ∀ (m : List ((StringID × StringID) × InputModel)) (rtx X : StringID),
      (∀ kv ∈ m, kv.2.output.id = kv.1.2) →
      alLookup (attachCreds rows m) (rtx, X) =
        (alLookup m (rtx, X)).map
          (fun inp => { inp with creds := inp.creds ++ credsForKey rows rtx X }) := by
  induction rows with
  | nil =>
    intro m rtx X hinv
    rw [attachCreds]
    cases alLookup m (rtx, X) <;> simp [credsForKey]
  | cons r rest ih =>
    intro m rtx X hinv
    rw [attachCreds]
    by_cases hsig : r.signature = ""
    · rw [if_pos hsig, ih m rtx X hinv]
      have hcreds : credsForKey (r :: rest) rtx X = credsForKey rest rtx X := by
        simp [credsForKey, List.filter_cons, hsig]
      rw [hcreds]
    · rw [if_neg hsig]
      rw [appendCred_eq _ _ _ m hinv]
      have hinv' := alUpdate_creds_inv m (r.redeemingTransactionID, r.outputID)
        (fun inp => { inp with creds :=
          inp.creds ++ [{ address := r.address, publicKey := r.publicKey,
                          signature := r.signature }] }) (fun v => rfl) hinv
      rw [ih _ rtx X hinv']
      by_cases hkey : (r.redeemingTransactionID, r.outputID) = (rtx, X)
      · rw [hkey, alLookup_alUpdate_self]
        have hcreds : credsForKey (r :: rest) rtx X =
            { address := r.address, publicKey := r.publicKey, signature := r.signature } ::
              credsForKey rest rtx X := by
          rw [Prod.mk.injEq] at hkey
          simp [credsForKey, List.filter_cons, hkey.1, hkey.2, hsig]
        rw [hcreds]
        cases alLookup m (rtx, X) <;> simp
      · rw [alLookup_alUpdate_ne _ _ _ _ (fun hc => hkey hc.symm)]
        have hcreds : credsForKey (r :: rest) rtx X = credsForKey rest rtx X := by
          have hnk : ¬(r.redeemingTransactionID = rtx ∧ r.outputID = X) := by
            intro hand
            exact hkey (by simp [hand.1, hand.2])
          simp only [credsForKey, List.filter_cons]
          rw [if_neg]
          simp only [Bool.and_eq_true, beq_iff_eq, bne_iff_ne, ne_eq]
          intro hand
          exact hnk ⟨hand.1.1, hand.1.2⟩
        rw [hcreds]

/-! ## Claim theorems: output addresses and input credentials -/

/-- C7: in a successfully dressed batch (rows consistent: each row's
address-table output identifier matches its output identifier, and rows of
one output agree on the output columns), an output entitled to exactly the
two distinct addresses `a1` and `a2` appears on its owning transaction with
exactly those two bare address entries, and the input of its redeeming
transaction matching it by output identity carries exactly one credential
(address, public key, signature) per row whose redeeming signature is
non-empty. -/
theorem dress_output_addresses_credentials
    (txs : List TransactionModel) (rows : List CompositeRecord)
    (txs' : List TransactionModel) (tx1 tx2 : TransactionModel)
    (r0 : CompositeRecord) (X : StringID) (a1 a2 : Address)
    (hok : dressTransactions txs rows = .ok txs')
    (hcons : ∀ r ∈ rows, r.outputID = r.id)
    (hsame : ∀ r ∈ rows, ∀ r' ∈ rows, r.id = r'.id → r.toOutput = r'.toOutput)
    (htx1 : tx1 ∈ txs') (htx2 : tx2 ∈ txs')
    (hr0 : r0 ∈ rows) (hr0id : r0.id = X)
    (hr0tx : r0.transactionID = tx1.id) (hr0rtx : r0.redeemingTransactionID = tx2.id)
    (haddrs : addressesFor rows X = [a1, a2]) (hne : a1 ≠ a2) :
    (∃ o ∈ tx1.outputs, o.id = X ∧ o.addresses = [a1, a2]) ∧
    (∃ inp ∈ tx2.inputs, inp.output.id = X ∧ inp.creds = credsFor rows X) := by
  subst hr0id
  obtain ⟨st, hcollect, t1, ht1mem, ht1eq⟩ :=
    dressTransactions_ok_elim txs rows txs' tx1 hok htx1
  obtain ⟨st2, hcollect2, t2, ht2mem, ht2eq⟩ :=
    dressTransactions_ok_elim txs rows txs' tx2 hok htx2
  rw [hcollect] at hcollect2
  have hst := Except.ok.inj hcollect2
  subst hst
  have htx1id : tx1.id = t1.id := by rw [ht1eq]; rfl
  have htx2id : tx2.id = t2.id := by rw [ht2eq]; rfl
  constructor
  · have hall : ∀ r ∈ rows, (r.transactionID, r.id) = (r0.transactionID, r0.id) →
        r.toOutput = r0.toOutput := by
      intro r hr hk
      rw [Prod.mk.injEq] at hk
      exact hsame r hr r0 hr0 hk.2
    have hlook := collectRows_outputsMap rows ({} : DressState) st
      (r0.transactionID, r0.id) r0.toOutput hcollect hall (Or.inr ⟨r0, hr0, rfl⟩)
    have hmem := alLookup_mem _ _ _ hlook
    refine ⟨withAddresses st.outputAddrs r0.toOutput, ?_, rfl, ?_⟩
    · rw [ht1eq]
      simp only [dressOne]
      refine List.mem_map.mpr ⟨((r0.transactionID, r0.id), r0.toOutput), ?_, rfl⟩
      refine List.mem_filter.mpr ⟨hmem, ?_⟩
      simp only [beq_iff_eq]
      exact hr0tx.trans htx1id
    · have haddr := collectRows_outputAddrs rows ({} : DressState) st r0.id hcollect
      show st.outputAddrs r0.toOutput.id = [a1, a2]
      rw [show r0.toOutput.id = r0.id from rfl, haddr]
      exact haddrs
  · have hall2 : ∀ r ∈ rows,
        (r.redeemingTransactionID, r.id) = (r0.redeemingTransactionID, r0.id) →
        ({ output := r.toOutput } : InputModel) = { output := r0.toOutput } := by
      intro r hr hk
      rw [Prod.mk.injEq] at hk
      rw [hsame r hr r0 hr0 hk.2]
    have hlook := collectRows_inputsMap rows ({} : DressState) st
      (r0.redeemingTransactionID, r0.id) { output := r0.toOutput } hcollect hall2
      (Or.inr ⟨r0, hr0, rfl⟩)
    have hinv := collectRows_inputsMap_inv rows ({} : DressState) st hcollect
      (by intro kv hkv; exact absurd hkv (List.not_mem_nil _))
    have hatt := attachCreds_lookup rows st.inputsMap r0.redeemingTransactionID r0.id hinv
    rw [hlook] at hatt
    simp only [Option.map_some'] at hatt
    have hcreds : credsForKey rows r0.redeemingTransactionID r0.id = credsFor rows r0.id := by
      refine congrArg _ (List.filter_congr ?_)
      intro x hx
      by_cases hxid : x.outputID = r0.id
      · have hxid' : x.id = r0.id := by rw [← hcons x hx]; exact hxid
        have hrtx : x.redeemingTransactionID = r0.redeemingTransactionID :=
          congrArg OutputModel.redeemingTransactionID (hsame x hx r0 hr0 hxid')
        simp [hrtx, hxid]
      · have hb : (x.outputID == r0.id) = false := beq_eq_false_iff_ne.mpr hxid
        simp [hb]
    have hmem2 := alLookup_mem _ _ _ hatt
    refine ⟨{ output := withAddresses st.outputAddrs r0.toOutput,
              creds := [] ++ credsForKey rows r0.redeemingTransactionID r0.id }, ?_, rfl, ?_⟩
    · rw [ht2eq]
      simp only [dressOne]
      refine List.mem_map.mpr
        ⟨((r0.redeemingTransactionID, r0.id),
          { output := r0.toOutput,
            creds := [] ++ credsForKey rows r0.redeemingTransactionID r0.id }), ?_, rfl⟩
      refine List.mem_filter.mpr ⟨hmem2, ?_⟩
      simp only [beq_iff_eq]
      exact hr0rtx.trans htx2id
    · show [] ++ credsForKey rows r0.redeemingTransactionID r0.id = credsFor rows r0.id
      rw [List.nil_append, hcreds]

/-- C7 witness: output O1 entitled to addresses a1 (signed) and a2
(unsigned): the dressed owning transaction carries both bare addresses and
the redeeming transaction's input carries exactly the a1 credential. -/
theorem dress_output_addresses_credentials_witness :
    (∃ o ∈ ({ id := "T1",
              outputs := [{ id := "O1", transactionID := "T1", assetID := "A", amount := "5",
                            redeemingTransactionID := "T2", addresses := ["a1", "a2"] }],
              outputTotals := [("A", "10")] } : TransactionModel).outputs,
        o.id = "O1" ∧ o.addresses = ["a1", "a2"]) ∧
    (∃ inp ∈ ({ id := "T2",
                inputs := [{ output := { id := "O1", transactionID := "T1", assetID := "A",
                                         amount := "5", redeemingTransactionID := "T2",
                                         addresses := ["a1", "a2"] },
                             creds := [{ address := "a1", publicKey := "p1",
                                         signature := "s1" }] }],
                inputTotals := [("A", "10")] } : TransactionModel).inputs,
        inp.output.id = "O1" ∧
        inp.creds = credsFor
          [{ id := "O1", transactionID := "T1", assetID := "A", amount := "5",
             redeemingTransactionID := "T2", outputID := "O1", address := "a1",
             signature := "s1", publicKey := "p1" },
           { id := "O1", transactionID := "T1", assetID := "A", amount := "5",
             redeemingTransactionID := "T2", outputID := "O1", address := "a2",
             signature := "", publicKey := "p2" }] "O1") :=
  dress_output_addresses_credentials
    [{ id := "T1" }, { id := "T2" }]
    [{ id := "O1", transactionID := "T1", assetID := "A", amount := "5",
       redeemingTransactionID := "T2", outputID := "O1", address := "a1",
       signature := "s1", publicKey := "p1" },
     { id := "O1", transactionID := "T1", assetID := "A", amount := "5",
       redeemingTransactionID := "T2", outputID := "O1", address := "a2",
       signature := "", publicKey := "p2" }]
    [{ id := "T1",
       outputs := [{ id := "O1", transactionID := "T1", assetID := "A", amount := "5",
                     redeemingTransactionID := "T2", addresses := ["a1", "a2"] }],
       outputTotals := [("A", "10")] },
     { id := "T2",
       inputs := [{ output := { id := "O1", transactionID := "T1", assetID := "A",
                                amount := "5", redeemingTransactionID := "T2",
                                addresses := ["a1", "a2"] },
                    creds := [{ address := "a1", publicKey := "p1",
                                signature := "s1" }] }],
       inputTotals := [("A", "10")] }]
    { id := "T1",
      outputs := [{ id := "O1", transactionID := "T1", assetID := "A", amount := "5",
                    redeemingTransactionID := "T2", addresses := ["a1", "a2"] }],
      outputTotals := [("A", "10")] }
    { id := "T2",
      inputs := [{ output := { id := "O1", transactionID := "T1", assetID := "A",
                               amount := "5", redeemingTransactionID := "T2",
                               addresses := ["a1", "a2"] },
                   creds := [{ address := "a1", publicKey := "p1",
                               signature := "s1" }] }],
      inputTotals := [("A", "10")] }
    { id := "O1", transactionID := "T1", assetID := "A", amount := "5",
      redeemingTransactionID := "T2", outputID := "O1", address := "a1",
      signature := "s1", publicKey := "p1" }
    "O1" "a1" "a2"
    rfl (by decide) (by decide) (by decide) (by decide) (by decide) rfl rfl rfl
    (by decide) (by decide)

end Avm
